import Mathlib

/-!
Shallow embedding of the pulp task dispatch engine
(`src/pulp/server/dispatch/task.py`: classes `Task` and `AsyncTask`).

Python mutation is modelled by explicit state passing: every lifecycle
method takes a `TaskState` and returns the updated `TaskState` together
with an `Except` value describing whether the method returned normally
or raised.  The wall clock is a natural-number counter bumped at each
`datetime.now` call; the archive collection is a list of saved records;
the observable order of side effects is recorded in an event trace.

The companion modules `pulp.server.dispatch.call` (CallRequest /
CallReport), `pulp.server.dispatch.constants` and
`pulp.server.db.model.dispatch` (ArchivedCall) are not among the given
sources; their data shapes are modelled from the spec (section 3 and
section 6) and are marked `Modelled from the spec:` below.
-/

namespace Pulp

/-- Call states used by `task.py` (from `dispatch_constants`): a task is
created `waiting`, enters `running` in `run()`, and ends in one of the
terminal states `finished`, `error`, `canceled`. -/
inductive CallState where
  | waiting
  | running
  | finished
  | error
  | canceled
deriving DecidableEq, Repr

/-- Modelled from the spec: `dispatch_constants.CALL_COMPLETE_STATES`
(the constants module is not among the sources); the spec names the
terminal states `FINISHED`, `ERROR`, `CANCELED`. -/
def CALL_COMPLETE_STATES : List CallState :=
  [CallState.finished, CallState.error, CallState.canceled]

/-- Modelled from the spec: `dispatch_constants.CALL_READY_STATES`; per
spec section 4.1 the precondition of `run()` is `state ∈ {WAITING}`. -/
def CALL_READY_STATES : List CallState :=
  [CallState.waiting]

/-- Execution hook keys of `dispatch_constants.CALL_EXECUTION_HOOKS` used
by `task.py`: `CALL_FINISH_EXECUTION_HOOK` (run on success),
`CALL_ERROR_EXECUTION_HOOK` (run on failure) and
`CALL_COMPLETE_EXECUTION_HOOK` (run on completion). -/
inductive HookKey where
  | finish
  | error
  | complete
deriving DecidableEq, Repr

/-- Python-level exceptions that the engine can raise: an exception
raised by user code (wrapped call, progress callback or a hook), a
failed `assert`, the `NotImplementedError` raised by `Task.cancel`, and
the bare `Exception(msg)` raised at the two `TODO` sites. -/
inductive PyErr (E : Type) where
  | user (e : E)
  | assertionError
  | notImplementedError
  | pyException (msg : String)
deriving DecidableEq, Repr

/-- Values stored in the kwargs mapping of a call request: either an
ordinary value or one of the callables the engine itself installs
(`Task._progress_pass_through`, and the bound `_succeeded` / `_failed`
methods that `AsyncTask.run` injects). -/
inductive KwVal (V : Type) where
  | val (v : V)
  | progressPassThrough
  | succeededClosure
  | failedClosure
deriving DecidableEq, Repr

/-- Python dict assignment `d[k] = v` on an association list. -/
def dictInsert (k : String) (v : α) : List (String × α) → List (String × α)
  | [] => [(k, v)]
  | (k', v') :: rest => if k' = k then (k, v) :: rest else (k', v') :: dictInsert k v rest

/-- Behaviour of the wrapped callable, seen through its interactions
with the engine: its declared parameter names (what
`inspect.getargspec(call).args` returns), the sequence of values it
reports through the progress keyword during execution, and its outcome
(normal return of a value, or a raised exception). -/
structure CallSpec (V E : Type) where
  arg_names : List String
  actions : List V
  outcome : Except E V

/-- Modelled from the spec: `CallRequest` (from
`pulp.server.dispatch.call`, not among the sources) — the callable,
positional args, keyword args, the execution hook registry (ordered
hooks per lifecycle key; each hook either returns or raises an `E`) and
the control hook registry (`CANCEL` only: absent, or present and either
returning or raising). -/
structure CallRequest (V E : Type) where
  call : CallSpec V E
  args : List V
  kwargs : List (String × KwVal V)
  execution_hooks : HookKey → List (Option E)
  control_hooks : Option (Option E)

/-- Modelled from the spec: `CallReport` (from
`pulp.server.dispatch.call`, not among the sources) — state, task id,
timestamps, result, exception/traceback and progress. -/
structure CallReport (V E : Type) where
  task_id : Option Nat
  state : CallState
  start_time : Option Nat
  finish_time : Option Nat
  result : Option V
  exception : Option (PyErr E)
  traceback : Option Unit
  progress : Option V
deriving DecidableEq, Repr

/-- Observable side effects of one task, in the order they happen. -/
inductive Event where
  | stateSet (s : CallState)
  | startTimeSet
  | resultSet
  | exceptionSet
  | hookRun (k : HookKey)
  | cancelHookRun
  | completeCallbackRun
  | finishTimeSet
  | archiveWrite
deriving DecidableEq, Repr

/-- Modelled from the spec: an archive record pairs the final
CallRequest with the final CallReport (`ArchivedCall` lives in
`pulp.server.db.model.dispatch`, not among the sources; spec section 6:
"`record` pairs the final CallRequest ... with the final CallReport"). -/
structure ArchivedCall (V E : Type) where
  call_request : CallRequest V E
  call_report : CallReport V E

/-- State of one `Task` object together with its environment: the clock,
the archive collection and the event trace.  `complete_callback` is the
queue callback (`Option` of its behaviour — returns or raises);
`progress_callback` is the user progress callback. -/
structure TaskState (V E : Type) where
  id : Nat
  call_request : CallRequest V E
  call_report : CallReport V E
  complete_callback : Option (Option E)
  progress_callback : Option (V → Except E V)
  blocking_tasks : List Nat
  clock : Nat
  events : List Event
  archives : List (ArchivedCall V E)

/-- `Task.__init__` (with `call_report=None`): fresh report in the
WAITING state carrying the task id, no callbacks, no blockers. -/
def Task.new (id : Nat) (call_request : CallRequest V E) : TaskState V E :=
  { id := id
    call_request := call_request
    call_report :=
      { task_id := some id
        state := CallState.waiting
        start_time := none
        finish_time := none
        result := none
        exception := none
        traceback := none
        progress := none }
    complete_callback := none
    progress_callback := none
    blocking_tasks := []
    clock := 0
    events := []
    archives := [] }

/-- A freshly constructed task whose coordinator has (optionally)
registered a complete callback and a progress callback before `run()`,
as spec section 6 describes. -/
def taskWith (id : Nat) (cr : CallRequest V E) (cc : Option (Option E))
    (pc : Option (V → Except E V)) : TaskState V E :=
  { Task.new id cr with complete_callback := cc, progress_callback := pc }

/-- `Task.set_progress_callback`: checks `kwarg_name` against
`inspect.getargspec(call).args`; on failure raises the bare
`Exception('')` of the `TODO` site; on success stores the pass-through
under that keyword in the call request's kwargs (mutating the request)
and stores the callback on the task. -/
def Task.set_progress_callback (t : TaskState V E) (kwarg_name : String)
    (callback : V → Except E V) : TaskState V E × Except (PyErr E) Unit :=
  if kwarg_name ∈ t.call_request.call.arg_names then
    ({ t with
        call_request :=
          { t.call_request with
              kwargs := dictInsert kwarg_name KwVal.progressPassThrough t.call_request.kwargs }
        progress_callback := some callback }, Except.ok ())
  else
    (t, Except.error (PyErr.pyException ""))

/-- `Task._progress_pass_through`: assigns the progress callback's
result into `call_report.progress` and returns `None`; if the callback
raises, the exception is logged and re-raised.  (Invoking it with no
callback set mirrors Python's `TypeError` on calling `None`.) -/
def Task.progress_pass_through (t : TaskState V E) (x : V) :
    TaskState V E × Except (PyErr E) (Option V) :=
  match t.progress_callback with
  | none => (t, Except.error (PyErr.pyException "TypeError"))
  | some f =>
    match f x with
    | Except.ok v =>
        ({ t with call_report := { t.call_report with progress := some v } }, Except.ok none)
    | Except.error e => (t, Except.error (PyErr.user e))

/-- Loop body of `Task._call_execution_hooks`: invoke the hooks for one
key in registration order; a raising hook aborts the loop and
propagates. -/
def runHooksAux (k : HookKey) : List (Option E) → TaskState V E →
    TaskState V E × Except (PyErr E) Unit
  | [], t => (t, Except.ok ())
  | hb :: rest, t =>
    let t' := { t with events := t.events ++ [Event.hookRun k] }
    match hb with
    | some e => (t', Except.error (PyErr.user e))
    | none => runHooksAux k rest t'

/-- `Task._call_execution_hooks(key)`. -/
def Task.call_execution_hooks (t : TaskState V E) (k : HookKey) :
    TaskState V E × Except (PyErr E) Unit :=
  runHooksAux k (t.call_request.execution_hooks k) t

/-- `Task._call_complete_callback`: invoke the complete callback if
present; any exception it raises is logged and suppressed. -/
def Task.call_complete_callback (t : TaskState V E) : TaskState V E :=
  match t.complete_callback with
  | none => t
  | some _ => { t with events := t.events ++ [Event.completeCallbackRun] }

/-- `Task._complete(state)`: assert the state is terminal, stamp
`finish_time`, run the COMPLETE hooks, invoke the complete callback
(errors suppressed), set `call_report.state`, then save the archive
record.  A raising COMPLETE hook propagates before the state is set. -/
def Task.complete (t : TaskState V E) (state : CallState) :
    TaskState V E × Except (PyErr E) Unit :=
  if state ∈ CALL_COMPLETE_STATES then
    let t1 := { t with
        call_report := { t.call_report with finish_time := some t.clock }
        clock := t.clock + 1
        events := t.events ++ [Event.finishTimeSet] }
    match Task.call_execution_hooks t1 HookKey.complete with
    | (t2, Except.error e) => (t2, Except.error e)
    | (t2, Except.ok _) =>
      let t3 := Task.call_complete_callback t2
      let t4 := { t3 with
          call_report := { t3.call_report with state := state }
          events := t3.events ++ [Event.stateSet state] }
      let t5 := { t4 with
          archives := t4.archives ++ [⟨t4.call_request, t4.call_report⟩]
          events := t4.events ++ [Event.archiveWrite] }
      (t5, Except.ok ())
  else (t, Except.error PyErr.assertionError)

/-- `Task._succeeded(result)`: assert RUNNING, store the result, run the
FINISH (on-success) hooks, then complete with state FINISHED. -/
def Task.succeeded (t : TaskState V E) (result : Option V) :
    TaskState V E × Except (PyErr E) Unit :=
  if t.call_report.state = CallState.running then
    let t1 := { t with
        call_report := { t.call_report with result := result }
        events := t.events ++ [Event.resultSet] }
    match Task.call_execution_hooks t1 HookKey.finish with
    | (t2, Except.error e) => (t2, Except.error e)
    | (t2, Except.ok _) => Task.complete t2 CallState.finished
  else (t, Except.error PyErr.assertionError)

/-- `Task._failed(exception, traceback)`: assert RUNNING, store the
exception and traceback, run the ERROR (on-failure) hooks, then
complete with state ERROR. -/
def Task.failed (t : TaskState V E) (exception : Option (PyErr E)) (traceback : Option Unit) :
    TaskState V E × Except (PyErr E) Unit :=
  if t.call_report.state = CallState.running then
    let t1 := { t with
        call_report := { t.call_report with exception := exception, traceback := traceback }
        events := t.events ++ [Event.exceptionSet] }
    match Task.call_execution_hooks t1 HookKey.error with
    | (t2, Except.error e) => (t2, Except.error e)
    | (t2, Except.ok _) => Task.complete t2 CallState.error
  else (t, Except.error PyErr.assertionError)

/-- Interpretation of the wrapped call's progress reports: each action
invokes the callable stored under the progress keyword.  When the
engine's pass-through is installed (`progress_callback` is set) this is
`Task._progress_pass_through`; otherwise the call is invoking whatever
the caller wired there itself, which the engine does not observe. -/
def execActions : List V → TaskState V E → TaskState V E × Except (PyErr E) Unit
  | [], t => (t, Except.ok ())
  | x :: rest, t =>
    match t.progress_callback with
    | none => execActions rest t
    | some _ =>
      match Task.progress_pass_through t x with
      | (t', Except.ok _) => execActions rest t'
      | (t', Except.error e) => (t', Except.error e)

/-- `Task.run`: assert a ready state, set RUNNING, stamp `start_time`,
invoke the callable on shallow copies of args/kwargs (the copies are
locals of `run`, so the call request itself is untouched here); a
normal return goes to `_succeeded`, any raised exception is caught and
goes to `_failed`. -/
def Task.run (t : TaskState V E) : TaskState V E × Except (PyErr E) Unit :=
  if t.call_report.state ∈ CALL_READY_STATES then
    let t1 := { t with
        call_report := { t.call_report with state := CallState.running }
        events := t.events ++ [Event.stateSet CallState.running] }
    let t2 := { t1 with
        call_report := { t1.call_report with start_time := some t1.clock }
        clock := t1.clock + 1
        events := t1.events ++ [Event.startTimeSet] }
    match execActions t2.call_request.call.actions t2 with
    | (t3, Except.error e) => Task.failed t3 (some e) (some ())
    | (t3, Except.ok _) =>
      match t3.call_request.call.outcome with
      | Except.ok v => Task.succeeded t3 (some v)
      | Except.error e => Task.failed t3 (some (PyErr.user e)) (some ())
  else (t, Except.error PyErr.assertionError)

/-- `Task.cancel`: no-op on a terminal state; otherwise raises
`NotImplementedError` when no CANCEL control hook is wired, and
otherwise invokes the hook and completes with state CANCELED.  The hook
call is unguarded, so a raising hook propagates. -/
def Task.cancel (t : TaskState V E) : TaskState V E × Except (PyErr E) Unit :=
  if t.call_report.state ∈ CALL_COMPLETE_STATES then
    (t, Except.ok ())
  else
    match t.call_request.control_hooks with
    | none => (t, Except.error PyErr.notImplementedError)
    | some hb =>
      let t1 := { t with events := t.events ++ [Event.cancelHookRun] }
      match hb with
      | some e => (t1, Except.error (PyErr.user e))
      | none => Task.complete t1 CallState.canceled

/-- State of one `AsyncTask` object: the underlying task plus the two
configured completion-callback keyword names. -/
structure AsyncTaskState (V E : Type) where
  task : TaskState V E
  success_callback_kwarg_name : String
  failure_callback_kwarg_name : String

/-- `AsyncTask._validate_async_call_request`: collect the configured
names missing from `inspect.getargspec(call).args`; raise the bare
`Exception('wtf async')` of the `TODO` site when any is missing. -/
def AsyncTask.validate_async_call_request (call_request : CallRequest V E)
    (success_callback_kwarg_name failure_callback_kwarg_name : String) :
    Except (PyErr E) Unit :=
  let missing :=
    (if success_callback_kwarg_name ∈ call_request.call.arg_names then []
     else [success_callback_kwarg_name]) ++
    (if failure_callback_kwarg_name ∈ call_request.call.arg_names then []
     else [failure_callback_kwarg_name])
  if missing = [] then Except.ok () else Except.error (PyErr.pyException "wtf async")

/-- `AsyncTask.__init__`: run `Task.__init__` first (so the report is
already initialized to WAITING), then validate; a validation failure
propagates out of the constructor. -/
def AsyncTask.new (id : Nat) (call_request : CallRequest V E)
    (success_callback_kwarg_name failure_callback_kwarg_name : String) :
    AsyncTaskState V E × Except (PyErr E) Unit :=
  let a : AsyncTaskState V E :=
    { task := Task.new id call_request
      success_callback_kwarg_name := success_callback_kwarg_name
      failure_callback_kwarg_name := failure_callback_kwarg_name }
  (a, AsyncTask.validate_async_call_request call_request
        success_callback_kwarg_name failure_callback_kwarg_name)

/-- `AsyncTask.run`: same entry as `Task.run`, but the `_succeeded` /
`_failed` closures are injected into a local copy of the kwargs
(`kwargs.update(self.callback_kwargs)`), the callable's immediate
return value is returned as-is (the task stays RUNNING), and only a
synchronously raised exception is routed to `_failed`. -/
def AsyncTask.run (a : AsyncTaskState V E) : AsyncTaskState V E × Except (PyErr E) (Option V) :=
  let t := a.task
  if t.call_report.state ∈ CALL_READY_STATES then
    let t1 := { t with
        call_report := { t.call_report with state := CallState.running }
        events := t.events ++ [Event.stateSet CallState.running] }
    let t2 := { t1 with
        call_report := { t1.call_report with start_time := some t1.clock }
        clock := t1.clock + 1
        events := t1.events ++ [Event.startTimeSet] }
    let _kwargs_local :=
      dictInsert a.failure_callback_kwarg_name KwVal.failedClosure
        (dictInsert a.success_callback_kwarg_name KwVal.succeededClosure t2.call_request.kwargs)
    match execActions t2.call_request.call.actions t2 with
    | (t3, Except.error e) =>
      let r := Task.failed t3 (some e) (some ())
      ({ a with task := r.1 }, r.2.map fun _ => none)
    | (t3, Except.ok _) =>
      match t3.call_request.call.outcome with
      | Except.ok v => ({ a with task := t3 }, Except.ok (some v))
      | Except.error e =>
        let r := Task.failed t3 (some (PyErr.user e)) (some ())
        ({ a with task := r.1 }, r.2.map fun _ => none)
  else (a, Except.error PyErr.assertionError)

/-- Events emitted by running one hook list: one `hookRun` per hook up
to and including the first raising hook. -/
def hookEvents (k : HookKey) : List (Option E) → List Event
  | [] => []
  | none :: rest => Event.hookRun k :: hookEvents k rest
  | some _ :: _ => [Event.hookRun k]

/-- Combined outcome of one hook list: the first raising hook's
exception, or normal return. -/
def hooksResult : List (Option E) → Except (PyErr E) Unit
  | [] => Except.ok ()
  | none :: rest => hooksResult rest
  | some e :: _ => Except.error (PyErr.user e)

/-- Events emitted by `_call_complete_callback`. -/
def ccEv : Option (Option E) → List Event
  | none => []
  | some _ => [Event.completeCallbackRun]

/-- All execution hooks of a request return normally. -/
def hooksOk (cr : CallRequest V E) : Bool :=
  ((cr.execution_hooks HookKey.finish).all fun hb => hb.isNone) &&
  ((cr.execution_hooks HookKey.error).all fun hb => hb.isNone) &&
  ((cr.execution_hooks HookKey.complete).all fun hb => hb.isNone)

/-- Outcome of the call's progress reports against a given progress
callback: the first report whose callback raises aborts the call with
that exception. -/
def actionsResult (pc : Option (V → Except E V)) : List V → Except (PyErr E) Unit
  | [] => Except.ok ()
  | x :: rest =>
    match pc with
    | none => actionsResult pc rest
    | some f =>
      match f x with
      | Except.ok _ => actionsResult pc rest
      | Except.error e => Except.error (PyErr.user e)

/-- The call's progress reports all go through without raising. -/
def actionsOk (pc : Option (V → Except E V)) : List V → Bool
  | [] => true
  | x :: rest =>
    match pc with
    | none => actionsOk pc rest
    | some f =>
      match f x with
      | Except.ok _ => actionsOk pc rest
      | Except.error _ => false

/-- Event classifiers for the ordering claims. -/
def isOutcomeHook : Event → Bool
  | Event.hookRun HookKey.finish => true
  | Event.hookRun HookKey.error => true
  | _ => false

def isCompleteHook : Event → Bool
  | Event.hookRun HookKey.complete => true
  | _ => false

def isTerminalStateSet : Event → Bool
  | Event.stateSet CallState.finished => true
  | Event.stateSet CallState.error => true
  | Event.stateSet CallState.canceled => true
  | _ => false

def isArchiveWrite : Event → Bool
  | Event.archiveWrite => true
  | _ => false

/-- `allBefore p q es`: in the trace `es`, no `p`-event occurs after any
`q`-event; with `p` and `q` disjoint this says every `p`-event happens
strictly before every `q`-event. -/
def allBefore (p q : Event → Bool) : List Event → Bool
  | [] => true
  | e :: rest => (!(q e) || rest.all fun x => !(p x)) && allBefore p q rest

/-- The completion ordering of spec section 5, corrected to what
`Task._complete` does: outcome hooks before COMPLETE hooks, COMPLETE
hooks before the terminal state assignment, and the terminal state
assignment before the archive write. -/
def orderedTrace (es : List Event) : Bool :=
  allBefore isOutcomeHook isCompleteHook es &&
  allBefore isCompleteHook isTerminalStateSet es &&
  allBefore isTerminalStateSet isArchiveWrite es

/-- The ordering the spec claims (archive write strictly before the
terminal state becomes visible in the report's state field). -/
def specClaimedArchiveBeforeState (es : List Event) : Bool :=
  allBefore isArchiveWrite isTerminalStateSet es

/-- Events appended by `Task._complete(st)`: the finish-time stamp, the
COMPLETE hooks up to a raising one, and — only when no COMPLETE hook
raised — the complete callback, the state assignment and the archive
write, in that order. -/
def completeEvents (cr : CallRequest V E) (cc : Option (Option E)) (st : CallState) :
    List Event :=
  [Event.finishTimeSet] ++
    hookEvents HookKey.complete (cr.execution_hooks HookKey.complete) ++
    (match hooksResult (cr.execution_hooks HookKey.complete) with
     | Except.error _ => []
     | Except.ok _ => ccEv cc ++ [Event.stateSet st] ++ [Event.archiveWrite])

/-- Events appended by `Task._succeeded`. -/
def succeededEvents (cr : CallRequest V E) (cc : Option (Option E)) : List Event :=
  [Event.resultSet] ++
    hookEvents HookKey.finish (cr.execution_hooks HookKey.finish) ++
    (match hooksResult (cr.execution_hooks HookKey.finish) with
     | Except.error _ => []
     | Except.ok _ => completeEvents cr cc CallState.finished)

/-- Events appended by `Task._failed`. -/
def failedEvents (cr : CallRequest V E) (cc : Option (Option E)) : List Event :=
  [Event.exceptionSet] ++
    hookEvents HookKey.error (cr.execution_hooks HookKey.error) ++
    (match hooksResult (cr.execution_hooks HookKey.error) with
     | Except.error _ => []
     | Except.ok _ => completeEvents cr cc CallState.error)

/-- Events appended by `Task.run` on a waiting task. -/
def runEvents (cr : CallRequest V E) (cc : Option (Option E))
    (pc : Option (V → Except E V)) : List Event :=
  [Event.stateSet CallState.running] ++ [Event.startTimeSet] ++
    (match actionsResult pc cr.call.actions with
     | Except.error _ => failedEvents cr cc
     | Except.ok _ =>
       match cr.call.outcome with
       | Except.ok _ => succeededEvents cr cc
       | Except.error _ => failedEvents cr cc)

/-- Events appended by `Task.cancel` on a non-terminal task. -/
def cancelEvents (cr : CallRequest V E) (cc : Option (Option E)) : List Event :=
  match cr.control_hooks with
  | none => []
  | some (some _) => [Event.cancelHookRun]
  | some none => [Event.cancelHookRun] ++ completeEvents cr cc CallState.canceled

/-- Sample callable for concrete checks: declares the keyword names the
engine may wire, reports no progress, and has the given outcome. -/
def sampleCall (o : Except Nat Nat) : CallSpec Nat Nat :=
  { arg_names := ["progress", "succeeded", "failed"], actions := [], outcome := o }

/-- Sample call request with no hooks and no cancel control hook. -/
def sampleRequest (o : Except Nat Nat) : CallRequest Nat Nat :=
  { call := sampleCall o
    args := []
    kwargs := []
    execution_hooks := fun _ => []
    control_hooks := none }

/-- Sample call request with a present, non-raising CANCEL control hook. -/
def cancellableRequest : CallRequest Nat Nat :=
  { call := sampleCall (Except.ok 0)
    args := []
    kwargs := []
    execution_hooks := fun _ => []
    control_hooks := some none }

/-- Call request whose callable declares neither a `succeeded` nor a
`failed` parameter. -/
def plainRequest : CallRequest Nat Nat :=
  { call := { arg_names := ["repo_id"], actions := [], outcome := Except.ok 0 }
    args := []
    kwargs := []
    execution_hooks := fun _ => []
    control_hooks := none }

/-- Call request whose callable reports the progress value 5 once during
execution. -/
def progressRequest : CallRequest Nat Nat :=
  { call := { arg_names := ["progress", "succeeded", "failed"], actions := [5]
              outcome := Except.ok 0 }
    args := []
    kwargs := []
    execution_hooks := fun _ => []
    control_hooks := none }

/-- A task already in the FINISHED state, as a completed run leaves it. -/
def doneTask : TaskState Nat Nat :=
  { Task.new 0 (sampleRequest (Except.ok 0)) with
      call_report :=
        { task_id := some 0
          state := CallState.finished
          start_time := some 0
          finish_time := some 1
          result := some 0
          exception := none
          traceback := none
          progress := none } }

theorem runHooksAux_eq (k : HookKey) (hs : List (Option E)) (t : TaskState V E) :
    runHooksAux k hs t =
      ({ t with events := t.events ++ hookEvents k hs }, hooksResult hs) := by
  induction hs generalizing t with
  | nil => simp [runHooksAux, hookEvents, hooksResult]
  | cons hb rest ih =>
    cases hb with
    | none => simp [runHooksAux, hookEvents, hooksResult, ih]
    | some e => simp [runHooksAux, hookEvents, hooksResult]

theorem hookEvents_mem {k : HookKey} {hs : List (Option E)} {e : Event}
    (h : e ∈ hookEvents k hs) : e = Event.hookRun k := by
  induction hs with
  | nil => simp [hookEvents] at h
  | cons hb rest ih =>
    cases hb with
    | none =>
      simp only [hookEvents, List.mem_cons] at h
      rcases h with h | h
      · exact h
      · exact ih h
    | some e' =>
      simp only [hookEvents, List.mem_singleton] at h
      exact h

theorem ccEv_mem {cc : Option (Option E)} {e : Event} (h : e ∈ ccEv cc) :
    e = Event.completeCallbackRun := by
  cases cc with
  | none => simp [ccEv] at h
  | some _ => simpa [ccEv] using h

theorem hooksResult_of_all_isNone {hs : List (Option E)}
    (h : hs.all (fun hb => hb.isNone) = true) : hooksResult hs = Except.ok () := by
  induction hs with
  | nil => rfl
  | cons hb rest ih =>
    cases hb with
    | none => simp only [List.all_cons] at h; exact ih (by simpa using h)
    | some e => simp at h

theorem execActions_spec (acts : List V) (t : TaskState V E) :
    ∃ p, execActions acts t =
      ({ t with call_report := { t.call_report with progress := p } },
        actionsResult t.progress_callback acts) := by
  induction acts generalizing t with
  | nil => exact ⟨t.call_report.progress, by simp [execActions, actionsResult]⟩
  | cons x rest ih =>
    obtain ⟨id, cr, rep, cc, pc, bt, ck, ev, ar⟩ := t
    cases pc with
    | none =>
      obtain ⟨p, hp⟩ := ih ⟨id, cr, rep, cc, none, bt, ck, ev, ar⟩
      exact ⟨p, by simpa [execActions, actionsResult] using hp⟩
    | some f =>
      cases hfx : f x with
      | ok v =>
        obtain ⟨p, hp⟩ :=
          ih ⟨id, cr, { rep with progress := some v }, cc, some f, bt, ck, ev, ar⟩
        refine ⟨p, ?_⟩
        simp only [execActions, Task.progress_pass_through, hfx]
        simpa [actionsResult, hfx] using hp
      | error e =>
        exact ⟨rep.progress,
          by simp [execActions, actionsResult, Task.progress_pass_through, hfx]⟩

theorem complete_spec (t : TaskState V E) (st : CallState)
    (hst : st ∈ CALL_COMPLETE_STATES)
    (hok : hooksResult (t.call_request.execution_hooks HookKey.complete) = Except.ok ()) :
    Task.complete t st =
      ({ t with
          call_report := { t.call_report with finish_time := some t.clock, state := st }
          clock := t.clock + 1
          events := t.events ++ [Event.finishTimeSet] ++
            hookEvents HookKey.complete (t.call_request.execution_hooks HookKey.complete) ++
            ccEv t.complete_callback ++ [Event.stateSet st, Event.archiveWrite]
          archives := t.archives ++
            [⟨t.call_request,
              { t.call_report with finish_time := some t.clock, state := st }⟩] },
        Except.ok ()) := by
  obtain ⟨id, cr, rep, cc, pc, bt, ck, ev, ar⟩ := t
  simp only [Task.complete, if_pos hst, Task.call_execution_hooks, runHooksAux_eq]
  simp only at hok
  rw [hok]
  cases cc with
  | none => simp [Task.call_complete_callback, ccEv]
  | some b => simp [Task.call_complete_callback, ccEv]

theorem succeeded_spec (t : TaskState V E) (r : Option V)
    (hrun : t.call_report.state = CallState.running)
    (hokF : hooksResult (t.call_request.execution_hooks HookKey.finish) = Except.ok ())
    (hokC : hooksResult (t.call_request.execution_hooks HookKey.complete) = Except.ok ()) :
    Task.succeeded t r =
      ({ t with
          call_report := { t.call_report with
            result := r, finish_time := some t.clock, state := CallState.finished }
          clock := t.clock + 1
          events := t.events ++ [Event.resultSet] ++
            hookEvents HookKey.finish (t.call_request.execution_hooks HookKey.finish) ++
            [Event.finishTimeSet] ++
            hookEvents HookKey.complete (t.call_request.execution_hooks HookKey.complete) ++
            ccEv t.complete_callback ++ [Event.stateSet CallState.finished, Event.archiveWrite]
          archives := t.archives ++
            [⟨t.call_request,
              { t.call_report with
                result := r, finish_time := some t.clock, state := CallState.finished }⟩] },
        Except.ok ()) := by
  obtain ⟨id, cr, rep, cc, pc, bt, ck, ev, ar⟩ := t
  simp only [Task.succeeded, Task.call_execution_hooks, runHooksAux_eq]
  simp only at hrun hokF hokC
  rw [if_pos hrun, hokF]
  dsimp only
  rw [complete_spec _ _ (by simp [CALL_COMPLETE_STATES]) (by simpa using hokC)]

theorem failed_spec (t : TaskState V E) (exc : Option (PyErr E)) (tb : Option Unit)
    (hrun : t.call_report.state = CallState.running)
    (hokE : hooksResult (t.call_request.execution_hooks HookKey.error) = Except.ok ())
    (hokC : hooksResult (t.call_request.execution_hooks HookKey.complete) = Except.ok ()) :
    Task.failed t exc tb =
      ({ t with
          call_report := { t.call_report with
            exception := exc, traceback := tb,
            finish_time := some t.clock, state := CallState.error }
          clock := t.clock + 1
          events := t.events ++ [Event.exceptionSet] ++
            hookEvents HookKey.error (t.call_request.execution_hooks HookKey.error) ++
            [Event.finishTimeSet] ++
            hookEvents HookKey.complete (t.call_request.execution_hooks HookKey.complete) ++
            ccEv t.complete_callback ++ [Event.stateSet CallState.error, Event.archiveWrite]
          archives := t.archives ++
            [⟨t.call_request,
              { t.call_report with
                exception := exc, traceback := tb,
                finish_time := some t.clock, state := CallState.error }⟩] },
        Except.ok ()) := by
  obtain ⟨id, cr, rep, cc, pc, bt, ck, ev, ar⟩ := t
  simp only [Task.failed, Task.call_execution_hooks, runHooksAux_eq]
  simp only at hrun hokE hokC
  rw [if_pos hrun, hokE]
  dsimp only
  rw [complete_spec _ _ (by simp [CALL_COMPLETE_STATES]) (by simpa using hokC)]

theorem actionsResult_of_actionsOk {pc : Option (V → Except E V)} {acts : List V}
    (h : actionsOk pc acts = true) : actionsResult pc acts = Except.ok () := by
  induction acts with
  | nil => rfl
  | cons x rest ih =>
    cases pc with
    | none => simpa [actionsOk, actionsResult] using ih (by simpa [actionsOk] using h)
    | some f =>
      cases hfx : f x with
      | ok v =>
        simp only [actionsOk, hfx] at h
        simpa [actionsResult, hfx] using ih h
      | error e => simp [actionsOk, hfx] at h

theorem run_ok_spec (t : TaskState V E) (v : V)
    (hw : t.call_report.state = CallState.waiting)
    (hact : actionsResult t.progress_callback t.call_request.call.actions = Except.ok ())
    (hout : t.call_request.call.outcome = Except.ok v)
    (hokF : hooksResult (t.call_request.execution_hooks HookKey.finish) = Except.ok ())
    (hokC : hooksResult (t.call_request.execution_hooks HookKey.complete) = Except.ok ()) :
    ∃ p, Task.run t =
      ({ t with
          call_report := { t.call_report with
            state := CallState.finished
            start_time := some t.clock
            finish_time := some (t.clock + 1)
            result := some v
            progress := p }
          clock := t.clock + 2
          events := t.events ++
            [Event.stateSet CallState.running, Event.startTimeSet, Event.resultSet] ++
            hookEvents HookKey.finish (t.call_request.execution_hooks HookKey.finish) ++
            [Event.finishTimeSet] ++
            hookEvents HookKey.complete (t.call_request.execution_hooks HookKey.complete) ++
            ccEv t.complete_callback ++ [Event.stateSet CallState.finished, Event.archiveWrite]
          archives := t.archives ++
            [⟨t.call_request,
              { t.call_report with
                state := CallState.finished
                start_time := some t.clock
                finish_time := some (t.clock + 1)
                result := some v
                progress := p }⟩] },
        Except.ok ()) := by
  obtain ⟨id, cr, rep, cc, pc, bt, ck, ev, ar⟩ := t
  simp only at hw hact hout hokF hokC
  simp only [Task.run, CALL_READY_STATES, hw]
  rw [if_pos (by simp)]
  obtain ⟨p, hp⟩ := execActions_spec cr.call.actions
    ({ id := id, call_request := cr
       call_report := { rep with state := CallState.running, start_time := some ck }
       complete_callback := cc, progress_callback := pc, blocking_tasks := bt
       clock := ck + 1
       events := ev ++ [Event.stateSet CallState.running] ++ [Event.startTimeSet]
       archives := ar } : TaskState V E)
  simp only at hp
  rw [hact] at hp
  refine ⟨p, ?_⟩
  dsimp only
  rw [hp]
  dsimp only
  rw [hout]
  dsimp only
  rw [succeeded_spec _ _ (by simp) (by simpa using hokF) (by simpa using hokC)]
  simp [List.append_assoc]

theorem run_call_raises_spec (t : TaskState V E) (e : E)
    (hw : t.call_report.state = CallState.waiting)
    (hact : actionsResult t.progress_callback t.call_request.call.actions = Except.ok ())
    (hout : t.call_request.call.outcome = Except.error e)
    (hokE : hooksResult (t.call_request.execution_hooks HookKey.error) = Except.ok ())
    (hokC : hooksResult (t.call_request.execution_hooks HookKey.complete) = Except.ok ()) :
    ∃ p, Task.run t =
      ({ t with
          call_report := { t.call_report with
            state := CallState.error
            start_time := some t.clock
            finish_time := some (t.clock + 1)
            exception := some (PyErr.user e)
            traceback := some ()
            progress := p }
          clock := t.clock + 2
          events := t.events ++
            [Event.stateSet CallState.running, Event.startTimeSet, Event.exceptionSet] ++
            hookEvents HookKey.error (t.call_request.execution_hooks HookKey.error) ++
            [Event.finishTimeSet] ++
            hookEvents HookKey.complete (t.call_request.execution_hooks HookKey.complete) ++
            ccEv t.complete_callback ++ [Event.stateSet CallState.error, Event.archiveWrite]
          archives := t.archives ++
            [⟨t.call_request,
              { t.call_report with
                state := CallState.error
                start_time := some t.clock
                finish_time := some (t.clock + 1)
                exception := some (PyErr.user e)
                traceback := some ()
                progress := p }⟩] },
        Except.ok ()) := by
  obtain ⟨id, cr, rep, cc, pc, bt, ck, ev, ar⟩ := t
  simp only at hw hact hout hokE hokC
  simp only [Task.run, CALL_READY_STATES, hw]
  rw [if_pos (by simp)]
  obtain ⟨p, hp⟩ := execActions_spec cr.call.actions
    ({ id := id, call_request := cr
       call_report := { rep with state := CallState.running, start_time := some ck }
       complete_callback := cc, progress_callback := pc, blocking_tasks := bt
       clock := ck + 1
       events := ev ++ [Event.stateSet CallState.running] ++ [Event.startTimeSet]
       archives := ar } : TaskState V E)
  simp only at hp
  rw [hact] at hp
  refine ⟨p, ?_⟩
  dsimp only
  rw [hp]
  dsimp only
  rw [hout]
  dsimp only
  rw [failed_spec _ _ _ (by simp) (by simpa using hokE) (by simpa using hokC)]
  simp [List.append_assoc]

theorem run_progress_raises_spec (t : TaskState V E) (pe : PyErr E)
    (hw : t.call_report.state = CallState.waiting)
    (hact : actionsResult t.progress_callback t.call_request.call.actions = Except.error pe)
    (hokE : hooksResult (t.call_request.execution_hooks HookKey.error) = Except.ok ())
    (hokC : hooksResult (t.call_request.execution_hooks HookKey.complete) = Except.ok ()) :
    ∃ p, Task.run t =
      ({ t with
          call_report := { t.call_report with
            state := CallState.error
            start_time := some t.clock
            finish_time := some (t.clock + 1)
            exception := some pe
            traceback := some ()
            progress := p }
          clock := t.clock + 2
          events := t.events ++
            [Event.stateSet CallState.running, Event.startTimeSet, Event.exceptionSet] ++
            hookEvents HookKey.error (t.call_request.execution_hooks HookKey.error) ++
            [Event.finishTimeSet] ++
            hookEvents HookKey.complete (t.call_request.execution_hooks HookKey.complete) ++
            ccEv t.complete_callback ++ [Event.stateSet CallState.error, Event.archiveWrite]
          archives := t.archives ++
            [⟨t.call_request,
              { t.call_report with
                state := CallState.error
                start_time := some t.clock
                finish_time := some (t.clock + 1)
                exception := some pe
                traceback := some ()
                progress := p }⟩] },
        Except.ok ()) := by
  obtain ⟨id, cr, rep, cc, pc, bt, ck, ev, ar⟩ := t
  simp only at hw hact hokE hokC
  simp only [Task.run, CALL_READY_STATES, hw]
  rw [if_pos (by simp)]
  obtain ⟨p, hp⟩ := execActions_spec cr.call.actions
    ({ id := id, call_request := cr
       call_report := { rep with state := CallState.running, start_time := some ck }
       complete_callback := cc, progress_callback := pc, blocking_tasks := bt
       clock := ck + 1
       events := ev ++ [Event.stateSet CallState.running] ++ [Event.startTimeSet]
       archives := ar } : TaskState V E)
  simp only at hp
  rw [hact] at hp
  refine ⟨p, ?_⟩
  dsimp only
  rw [hp]
  dsimp only
  rw [failed_spec _ _ _ (by simp) (by simpa using hokE) (by simpa using hokC)]
  simp [List.append_assoc]

theorem complete_events (t : TaskState V E) (st : CallState)
    (hst : st ∈ CALL_COMPLETE_STATES) :
    (Task.complete t st).1.events = t.events ++ completeEvents t.call_request t.complete_callback st := by
  obtain ⟨id, cr, rep, cc, pc, bt, ck, ev, ar⟩ := t
  simp only [Task.complete, if_pos hst, Task.call_execution_hooks, runHooksAux_eq]
  cases hres : hooksResult (cr.execution_hooks HookKey.complete) with
  | error e => simp [completeEvents, hres]
  | ok u =>
    cases cc with
    | none => simp [completeEvents, hres, Task.call_complete_callback, ccEv]
    | some b => simp [completeEvents, hres, Task.call_complete_callback, ccEv]

theorem complete_call_request (t : TaskState V E) (st : CallState) :
    (Task.complete t st).1.call_request = t.call_request := by
  obtain ⟨id, cr, rep, cc, pc, bt, ck, ev, ar⟩ := t
  by_cases hst : st ∈ CALL_COMPLETE_STATES
  · simp only [Task.complete, if_pos hst, Task.call_execution_hooks, runHooksAux_eq]
    cases hres : hooksResult (cr.execution_hooks HookKey.complete) with
    | error e => simp
    | ok u =>
      cases cc with
      | none => simp [Task.call_complete_callback]
      | some b => simp [Task.call_complete_callback]
  · simp [Task.complete, if_neg hst]

theorem succeeded_events (t : TaskState V E) (r : Option V)
    (hrun : t.call_report.state = CallState.running) :
    (Task.succeeded t r).1.events = t.events ++ succeededEvents t.call_request t.complete_callback := by
  obtain ⟨id, cr, rep, cc, pc, bt, ck, ev, ar⟩ := t
  simp only at hrun
  simp only [Task.succeeded, if_pos hrun, Task.call_execution_hooks, runHooksAux_eq]
  cases hres : hooksResult (cr.execution_hooks HookKey.finish) with
  | error e => simp [succeededEvents, hres]
  | ok u =>
    dsimp only
    rw [complete_events _ _ (by simp [CALL_COMPLETE_STATES])]
    simp [succeededEvents, hres, completeEvents]

theorem succeeded_call_request (t : TaskState V E) (r : Option V) :
    (Task.succeeded t r).1.call_request = t.call_request := by
  obtain ⟨id, cr, rep, cc, pc, bt, ck, ev, ar⟩ := t
  by_cases hrun : rep.state = CallState.running
  · simp only [Task.succeeded, if_pos hrun, Task.call_execution_hooks, runHooksAux_eq]
    cases hres : hooksResult (cr.execution_hooks HookKey.finish) with
    | error e => simp
    | ok u =>
      dsimp only
      rw [complete_call_request]
  · simp [Task.succeeded, hrun]

theorem failed_events (t : TaskState V E) (exc : Option (PyErr E)) (tb : Option Unit)
    (hrun : t.call_report.state = CallState.running) :
    (Task.failed t exc tb).1.events =
      t.events ++ failedEvents t.call_request t.complete_callback := by
  obtain ⟨id, cr, rep, cc, pc, bt, ck, ev, ar⟩ := t
  simp only at hrun
  simp only [Task.failed, if_pos hrun, Task.call_execution_hooks, runHooksAux_eq]
  cases hres : hooksResult (cr.execution_hooks HookKey.error) with
  | error e => simp [failedEvents, hres]
  | ok u =>
    dsimp only
    rw [complete_events _ _ (by simp [CALL_COMPLETE_STATES])]
    simp [failedEvents, hres, completeEvents]

theorem failed_call_request (t : TaskState V E) (exc : Option (PyErr E)) (tb : Option Unit) :
    (Task.failed t exc tb).1.call_request = t.call_request := by
  obtain ⟨id, cr, rep, cc, pc, bt, ck, ev, ar⟩ := t
  by_cases hrun : rep.state = CallState.running
  · simp only [Task.failed, if_pos hrun, Task.call_execution_hooks, runHooksAux_eq]
    cases hres : hooksResult (cr.execution_hooks HookKey.error) with
    | error e => simp
    | ok u =>
      dsimp only
      rw [complete_call_request]
  · simp [Task.failed, hrun]

theorem run_events (t : TaskState V E) (hw : t.call_report.state = CallState.waiting) :
    (Task.run t).1.events =
      t.events ++ runEvents t.call_request t.complete_callback t.progress_callback := by
  obtain ⟨id, cr, rep, cc, pc, bt, ck, ev, ar⟩ := t
  simp only at hw
  simp only [Task.run, CALL_READY_STATES, hw]
  rw [if_pos (by simp)]
  obtain ⟨p, hp⟩ := execActions_spec cr.call.actions
    ({ id := id, call_request := cr
       call_report := { rep with state := CallState.running, start_time := some ck }
       complete_callback := cc, progress_callback := pc, blocking_tasks := bt
       clock := ck + 1
       events := ev ++ [Event.stateSet CallState.running] ++ [Event.startTimeSet]
       archives := ar } : TaskState V E)
  simp only at hp
  rw [hp]
  cases hact : actionsResult pc cr.call.actions with
  | error pe =>
    dsimp only
    rw [failed_events _ _ _ (by simp)]
    simp [runEvents, hact]
  | ok u =>
    dsimp only
    cases hout : cr.call.outcome with
    | ok v =>
      dsimp only
      rw [succeeded_events _ _ (by simp)]
      simp [runEvents, hact, hout]
    | error e =>
      dsimp only
      rw [failed_events _ _ _ (by simp)]
      simp [runEvents, hact, hout]

theorem run_call_request (t : TaskState V E) :
    (Task.run t).1.call_request = t.call_request := by
  obtain ⟨id, cr, rep, cc, pc, bt, ck, ev, ar⟩ := t
  by_cases hw : rep.state ∈ CALL_READY_STATES
  · simp only [Task.run, if_pos hw]
    obtain ⟨p, hp⟩ := execActions_spec cr.call.actions
      ({ id := id, call_request := cr
         call_report := { rep with state := CallState.running, start_time := some ck }
         complete_callback := cc, progress_callback := pc, blocking_tasks := bt
         clock := ck + 1
         events := ev ++ [Event.stateSet CallState.running] ++ [Event.startTimeSet]
         archives := ar } : TaskState V E)
    simp only at hp
    rw [hp]
    cases hact : actionsResult pc cr.call.actions with
    | error pe =>
      dsimp only
      rw [failed_call_request]
    | ok u =>
      dsimp only
      cases hout : cr.call.outcome with
      | ok v =>
        dsimp only
        rw [succeeded_call_request]
      | error e =>
        dsimp only
        rw [failed_call_request]
  · simp [Task.run, if_neg hw]

theorem cancel_events (t : TaskState V E)
    (hnt : t.call_report.state ∉ CALL_COMPLETE_STATES) :
    (Task.cancel t).1.events =
      t.events ++ cancelEvents t.call_request t.complete_callback := by
  obtain ⟨id, cr, rep, cc, pc, bt, ck, ev, ar⟩ := t
  simp only at hnt
  simp only [Task.cancel, if_neg hnt]
  cases hch : cr.control_hooks with
  | none => simp [cancelEvents, hch]
  | some hb =>
    cases hb with
    | some e => simp [cancelEvents, hch]
    | none =>
      dsimp only
      rw [complete_events _ _ (by simp [CALL_COMPLETE_STATES])]
      simp [cancelEvents, hch]

theorem cancel_call_request (t : TaskState V E) :
    (Task.cancel t).1.call_request = t.call_request := by
  obtain ⟨id, cr, rep, cc, pc, bt, ck, ev, ar⟩ := t
  by_cases hnt : rep.state ∈ CALL_COMPLETE_STATES
  · simp [Task.cancel, if_pos hnt]
  · simp only [Task.cancel, if_neg hnt]
    cases hch : cr.control_hooks with
    | none => simp
    | some hb =>
      cases hb with
      | some e => simp
      | none =>
        dsimp only
        rw [complete_call_request]

theorem cancel_spec (t : TaskState V E)
    (hnt : t.call_report.state ∉ CALL_COMPLETE_STATES)
    (hch : t.call_request.control_hooks = some none)
    (hokC : hooksResult (t.call_request.execution_hooks HookKey.complete) = Except.ok ()) :
    Task.cancel t =
      ({ t with
          call_report := { t.call_report with
            finish_time := some t.clock, state := CallState.canceled }
          clock := t.clock + 1
          events := t.events ++ [Event.cancelHookRun, Event.finishTimeSet] ++
            hookEvents HookKey.complete (t.call_request.execution_hooks HookKey.complete) ++
            ccEv t.complete_callback ++ [Event.stateSet CallState.canceled, Event.archiveWrite]
          archives := t.archives ++
            [⟨t.call_request,
              { t.call_report with
                finish_time := some t.clock, state := CallState.canceled }⟩] },
        Except.ok ()) := by
  obtain ⟨id, cr, rep, cc, pc, bt, ck, ev, ar⟩ := t
  simp only at hnt hch hokC
  simp only [Task.cancel, if_neg hnt, hch]
  rw [complete_spec _ _ (by simp [CALL_COMPLETE_STATES]) (by simpa using hokC)]
  simp [List.append_assoc]

theorem allBefore_of_no_q {p q : Event → Bool} {es : List Event}
    (h : es.all (fun e => !(q e)) = true) : allBefore p q es = true := by
  induction es with
  | nil => rfl
  | cons e rest ih =>
    simp only [List.all_cons, Bool.and_eq_true] at h
    simp only [allBefore, Bool.and_eq_true]
    constructor
    · rw [Bool.or_eq_true]
      exact Or.inl h.1
    · exact ih h.2

theorem allBefore_of_no_p {p q : Event → Bool} {es : List Event}
    (h : es.all (fun e => !(p e)) = true) : allBefore p q es = true := by
  induction es with
  | nil => rfl
  | cons e rest ih =>
    simp only [List.all_cons, Bool.and_eq_true] at h
    simp only [allBefore, Bool.and_eq_true]
    constructor
    · rw [Bool.or_eq_true]
      exact Or.inr h.2
    · exact ih h.2

theorem allBefore_split {p q : Event → Bool} {xs ys : List Event}
    (h1 : xs.all (fun e => !(q e)) = true) (h2 : ys.all (fun e => !(p e)) = true) :
    allBefore p q (xs ++ ys) = true := by
  induction xs with
  | nil => exact allBefore_of_no_p h2
  | cons e rest ih =>
    simp only [List.all_cons, Bool.and_eq_true] at h1
    simp only [List.cons_append, allBefore, Bool.and_eq_true]
    constructor
    · rw [Bool.or_eq_true]
      exact Or.inl h1.1
    · exact ih h1.2

theorem hookEvents_all_not {p : Event → Bool} (k : HookKey) (hs : List (Option E))
    (h : p (Event.hookRun k) = false) :
    (hookEvents k hs).all (fun e => !(p e)) = true := by
  rw [List.all_eq_true]
  intro e he
  rw [hookEvents_mem he, h]
  rfl

@[simp] theorem hookEvents_no_terminal (k : HookKey) (hs : List (Option E)) :
    (hookEvents k hs).all (fun e => !(isTerminalStateSet e)) = true :=
  hookEvents_all_not k hs rfl

@[simp] theorem hookEvents_no_archive (k : HookKey) (hs : List (Option E)) :
    (hookEvents k hs).all (fun e => !(isArchiveWrite e)) = true :=
  hookEvents_all_not k hs rfl

@[simp] theorem hookEvents_finish_no_complete (hs : List (Option E)) :
    (hookEvents HookKey.finish hs).all (fun e => !(isCompleteHook e)) = true :=
  hookEvents_all_not _ hs rfl

@[simp] theorem hookEvents_error_no_complete (hs : List (Option E)) :
    (hookEvents HookKey.error hs).all (fun e => !(isCompleteHook e)) = true :=
  hookEvents_all_not _ hs rfl

@[simp] theorem hookEvents_complete_no_outcome (hs : List (Option E)) :
    (hookEvents HookKey.complete hs).all (fun e => !(isOutcomeHook e)) = true :=
  hookEvents_all_not _ hs rfl

@[simp] theorem ccEv_no_outcome (cc : Option (Option E)) :
    (ccEv cc).all (fun e => !(isOutcomeHook e)) = true := by
  cases cc <;> rfl

@[simp] theorem ccEv_no_complete (cc : Option (Option E)) :
    (ccEv cc).all (fun e => !(isCompleteHook e)) = true := by
  cases cc <;> rfl

@[simp] theorem ccEv_no_terminal (cc : Option (Option E)) :
    (ccEv cc).all (fun e => !(isTerminalStateSet e)) = true := by
  cases cc <;> rfl

@[simp] theorem ccEv_no_archive (cc : Option (Option E)) :
    (ccEv cc).all (fun e => !(isArchiveWrite e)) = true := by
  cases cc <;> rfl

@[simp] theorem isCompleteHook_stateSet (s : CallState) :
    isCompleteHook (Event.stateSet s) = false := rfl

@[simp] theorem isCompleteHook_startTimeSet : isCompleteHook Event.startTimeSet = false := rfl

@[simp] theorem isCompleteHook_finishTimeSet : isCompleteHook Event.finishTimeSet = false := rfl

@[simp] theorem isCompleteHook_archiveWrite : isCompleteHook Event.archiveWrite = false := rfl

@[simp] theorem isCompleteHook_cancelHookRun : isCompleteHook Event.cancelHookRun = false := rfl

@[simp] theorem isOutcomeHook_stateSet (s : CallState) :
    isOutcomeHook (Event.stateSet s) = false := rfl

@[simp] theorem isOutcomeHook_startTimeSet : isOutcomeHook Event.startTimeSet = false := rfl

@[simp] theorem isOutcomeHook_finishTimeSet : isOutcomeHook Event.finishTimeSet = false := rfl

@[simp] theorem isOutcomeHook_archiveWrite : isOutcomeHook Event.archiveWrite = false := rfl

@[simp] theorem isOutcomeHook_cancelHookRun : isOutcomeHook Event.cancelHookRun = false := rfl

@[simp] theorem isTerminalStateSet_running :
    isTerminalStateSet (Event.stateSet CallState.running) = false := rfl

@[simp] theorem isTerminalStateSet_startTimeSet :
    isTerminalStateSet Event.startTimeSet = false := rfl

@[simp] theorem isTerminalStateSet_finishTimeSet :
    isTerminalStateSet Event.finishTimeSet = false := rfl

@[simp] theorem isTerminalStateSet_archiveWrite :
    isTerminalStateSet Event.archiveWrite = false := rfl

@[simp] theorem isTerminalStateSet_cancelHookRun :
    isTerminalStateSet Event.cancelHookRun = false := rfl

@[simp] theorem isTerminalStateSet_hookRun (k : HookKey) :
    isTerminalStateSet (Event.hookRun k) = false := rfl

@[simp] theorem isArchiveWrite_stateSet (s : CallState) :
    isArchiveWrite (Event.stateSet s) = false := rfl

@[simp] theorem isArchiveWrite_startTimeSet : isArchiveWrite Event.startTimeSet = false := rfl

@[simp] theorem isArchiveWrite_finishTimeSet : isArchiveWrite Event.finishTimeSet = false := rfl

@[simp] theorem isArchiveWrite_cancelHookRun : isArchiveWrite Event.cancelHookRun = false := rfl

@[simp] theorem isArchiveWrite_hookRun (k : HookKey) :
    isArchiveWrite (Event.hookRun k) = false := rfl

theorem orderedTrace_outcome_path (k : HookKey) (marker : Event) (st : CallState)
    (cr : CallRequest V E) (cc : Option (Option E))
    (hk1 : isCompleteHook (Event.hookRun k) = false)
    (hm1 : isCompleteHook marker = false)
    (hm2 : isTerminalStateSet marker = false)
    (hm3 : isArchiveWrite marker = false) :
    orderedTrace
      ([Event.stateSet CallState.running] ++ [Event.startTimeSet] ++ ([marker] ++
        hookEvents k (cr.execution_hooks k) ++
        (match hooksResult (cr.execution_hooks k) with
         | Except.error _ => []
         | Except.ok _ => completeEvents cr cc st))) = true := by
  cases hres : hooksResult (cr.execution_hooks k) with
  | error e =>
    simp only [orderedTrace, Bool.and_eq_true]
    refine ⟨⟨?_, ?_⟩, ?_⟩
    · exact allBefore_of_no_q
        (by simp [List.all_append, hm1, hookEvents_all_not k _ hk1])
    · exact allBefore_of_no_q
        (by simp [List.all_append, hm2])
    · exact allBefore_of_no_q
        (by simp [List.all_append, hm3])
  | ok u =>
    cases hres2 : hooksResult (cr.execution_hooks HookKey.complete) with
    | error e2 =>
      simp only [orderedTrace, Bool.and_eq_true, completeEvents, hres2]
      refine ⟨⟨?_, ?_⟩, ?_⟩
      · have hsplit :
            [Event.stateSet CallState.running] ++ [Event.startTimeSet] ++ ([marker] ++
              hookEvents k (cr.execution_hooks k) ++
              ([Event.finishTimeSet] ++
                hookEvents HookKey.complete (cr.execution_hooks HookKey.complete) ++ [])) =
            ([Event.stateSet CallState.running] ++ [Event.startTimeSet] ++ [marker] ++
              hookEvents k (cr.execution_hooks k)) ++
              ([Event.finishTimeSet] ++
                hookEvents HookKey.complete (cr.execution_hooks HookKey.complete)) := by
          simp [List.append_assoc]
        rw [hsplit]
        exact allBefore_split
          (by simp [List.all_append, hm1, hookEvents_all_not k _ hk1])
          (by simp [List.all_append])
      · exact allBefore_of_no_q
          (by simp [List.all_append, hm2])
      · exact allBefore_of_no_q
          (by simp [List.all_append, hm3])
    | ok u2 =>
      simp only [orderedTrace, Bool.and_eq_true, completeEvents, hres2]
      refine ⟨⟨?_, ?_⟩, ?_⟩
      · have hsplit :
            [Event.stateSet CallState.running] ++ [Event.startTimeSet] ++ ([marker] ++
              hookEvents k (cr.execution_hooks k) ++
              ([Event.finishTimeSet] ++
                hookEvents HookKey.complete (cr.execution_hooks HookKey.complete) ++
                (ccEv cc ++ [Event.stateSet st] ++ [Event.archiveWrite]))) =
            ([Event.stateSet CallState.running] ++ [Event.startTimeSet] ++ [marker] ++
              hookEvents k (cr.execution_hooks k)) ++
              ([Event.finishTimeSet] ++
                (hookEvents HookKey.complete (cr.execution_hooks HookKey.complete) ++
                  (ccEv cc ++ ([Event.stateSet st] ++ [Event.archiveWrite])))) := by
          simp [List.append_assoc]
        rw [hsplit]
        exact allBefore_split
          (by simp [List.all_append, hm1, hookEvents_all_not k _ hk1])
          (by simp [List.all_append])
      · have hsplit :
            [Event.stateSet CallState.running] ++ [Event.startTimeSet] ++ ([marker] ++
              hookEvents k (cr.execution_hooks k) ++
              ([Event.finishTimeSet] ++
                hookEvents HookKey.complete (cr.execution_hooks HookKey.complete) ++
                (ccEv cc ++ [Event.stateSet st] ++ [Event.archiveWrite]))) =
            ([Event.stateSet CallState.running] ++ [Event.startTimeSet] ++ [marker] ++
              hookEvents k (cr.execution_hooks k) ++ [Event.finishTimeSet] ++
              hookEvents HookKey.complete (cr.execution_hooks HookKey.complete) ++
              ccEv cc) ++
              ([Event.stateSet st] ++ [Event.archiveWrite]) := by
          simp [List.append_assoc]
        rw [hsplit]
        exact allBefore_split
          (by simp [List.all_append, hm2])
          (by simp [List.all_append])
      · have hsplit :
            [Event.stateSet CallState.running] ++ [Event.startTimeSet] ++ ([marker] ++
              hookEvents k (cr.execution_hooks k) ++
              ([Event.finishTimeSet] ++
                hookEvents HookKey.complete (cr.execution_hooks HookKey.complete) ++
                (ccEv cc ++ [Event.stateSet st] ++ [Event.archiveWrite]))) =
            ([Event.stateSet CallState.running] ++ [Event.startTimeSet] ++ [marker] ++
              hookEvents k (cr.execution_hooks k) ++ [Event.finishTimeSet] ++
              hookEvents HookKey.complete (cr.execution_hooks HookKey.complete) ++
              ccEv cc ++ [Event.stateSet st]) ++
              [Event.archiveWrite] := by
          simp [List.append_assoc]
        rw [hsplit]
        exact allBefore_split
          (by simp [List.all_append, hm3])
          (by simp [List.all_append])

theorem orderedTrace_runEvents (cr : CallRequest V E) (cc : Option (Option E))
    (pc : Option (V → Except E V)) :
    orderedTrace (runEvents cr cc pc) = true := by
  unfold runEvents
  cases hact : actionsResult pc cr.call.actions with
  | error pe =>
    dsimp only
    unfold failedEvents
    exact orderedTrace_outcome_path HookKey.error Event.exceptionSet CallState.error cr cc
      rfl rfl rfl rfl
  | ok u =>
    dsimp only
    cases hout : cr.call.outcome with
    | ok v =>
      dsimp only
      unfold succeededEvents
      exact orderedTrace_outcome_path HookKey.finish Event.resultSet CallState.finished cr cc
        rfl rfl rfl rfl
    | error e =>
      dsimp only
      unfold failedEvents
      exact orderedTrace_outcome_path HookKey.error Event.exceptionSet CallState.error cr cc
        rfl rfl rfl rfl

theorem orderedTrace_cancelEvents (cr : CallRequest V E) (cc : Option (Option E)) :
    orderedTrace (cancelEvents cr cc) = true := by
  unfold cancelEvents
  cases hch : cr.control_hooks with
  | none => rfl
  | some hb =>
    cases hb with
    | some e => rfl
    | none =>
      dsimp only
      unfold completeEvents
      cases hres : hooksResult (cr.execution_hooks HookKey.complete) with
      | error e =>
        simp only [orderedTrace, Bool.and_eq_true]
        refine ⟨⟨?_, ?_⟩, ?_⟩
        · exact allBefore_of_no_p (by simp [List.all_append])
        · exact allBefore_of_no_q (by simp [List.all_append])
        · exact allBefore_of_no_q (by simp [List.all_append])
      | ok u =>
        simp only [orderedTrace, Bool.and_eq_true]
        refine ⟨⟨?_, ?_⟩, ?_⟩
        · exact allBefore_of_no_p (by simp [List.all_append])
        · have hsplit :
              [Event.cancelHookRun] ++
                ([Event.finishTimeSet] ++
                  hookEvents HookKey.complete (cr.execution_hooks HookKey.complete) ++
                  (ccEv cc ++ [Event.stateSet CallState.canceled] ++ [Event.archiveWrite])) =
              ([Event.cancelHookRun] ++ [Event.finishTimeSet] ++
                hookEvents HookKey.complete (cr.execution_hooks HookKey.complete) ++
                ccEv cc) ++
                ([Event.stateSet CallState.canceled] ++ [Event.archiveWrite]) := by
            simp [List.append_assoc]
          rw [hsplit]
          exact allBefore_split
            (by simp [List.all_append])
            (by simp [List.all_append])
        · have hsplit :
              [Event.cancelHookRun] ++
                ([Event.finishTimeSet] ++
                  hookEvents HookKey.complete (cr.execution_hooks HookKey.complete) ++
                  (ccEv cc ++ [Event.stateSet CallState.canceled] ++ [Event.archiveWrite])) =
              ([Event.cancelHookRun] ++ [Event.finishTimeSet] ++
                hookEvents HookKey.complete (cr.execution_hooks HookKey.complete) ++
                ccEv cc ++ [Event.stateSet CallState.canceled]) ++
                [Event.archiveWrite] := by
            simp [List.append_assoc]
          rw [hsplit]
          exact allBefore_split
            (by simp [List.all_append])
            (by simp [List.all_append])

theorem async_run_call_request (a : AsyncTaskState V E) :
    (AsyncTask.run a).1.task.call_request = a.task.call_request := by
  obtain ⟨t, sn, fn⟩ := a
  obtain ⟨id, cr, rep, cc, pc, bt, ck, ev, ar⟩ := t
  by_cases hw : rep.state ∈ CALL_READY_STATES
  · simp only [AsyncTask.run, if_pos hw]
    obtain ⟨p, hp⟩ := execActions_spec cr.call.actions
      ({ id := id, call_request := cr
         call_report := { rep with state := CallState.running, start_time := some ck }
         complete_callback := cc, progress_callback := pc, blocking_tasks := bt
         clock := ck + 1
         events := ev ++ [Event.stateSet CallState.running] ++ [Event.startTimeSet]
         archives := ar } : TaskState V E)
    simp only at hp
    rw [hp]
    cases hact : actionsResult pc cr.call.actions with
    | error pe =>
      dsimp only
      rw [failed_call_request]
    | ok u =>
      dsimp only
      cases hout : cr.call.outcome with
      | ok v => rfl
      | error e =>
        dsimp only
        rw [failed_call_request]
  · simp [AsyncTask.run, if_neg hw]

theorem count_ccRun_hookEvents (k : HookKey) (hs : List (Option E)) :
    (hookEvents k hs).count Event.completeCallbackRun = 0 := by
  rw [List.count_eq_zero]
  intro h
  have hmem := hookEvents_mem h
  simp at hmem

/-- C3: a WAITING task whose wrapped call executes without raising (all
progress reports succeed) and returns `v`, with non-raising execution
hooks, is left by `run()` in state FINISHED with `result = v` and both
timestamps set with `start_time ≤ finish_time`. -/
theorem C3_run_success (id : Nat) (cr : CallRequest V E) (cc : Option (Option E))
    (pc : Option (V → Except E V)) (v : V)
    (hout : cr.call.outcome = Except.ok v)
    (hhooks : hooksOk cr = true)
    (hact : actionsOk pc cr.call.actions = true) :
    (Task.run (taskWith id cr cc pc)).1.call_report.state = CallState.finished ∧
    (Task.run (taskWith id cr cc pc)).1.call_report.result = some v ∧
    ∃ s f : Nat,
      (Task.run (taskWith id cr cc pc)).1.call_report.start_time = some s ∧
      (Task.run (taskWith id cr cc pc)).1.call_report.finish_time = some f ∧ s ≤ f := by
  simp only [hooksOk, Bool.and_eq_true] at hhooks
  obtain ⟨⟨hF, hE⟩, hC⟩ := hhooks
  obtain ⟨p, hp⟩ := run_ok_spec (taskWith id cr cc pc) v rfl
    (actionsResult_of_actionsOk hact) hout
    (hooksResult_of_all_isNone hF) (hooksResult_of_all_isNone hC)
  rw [hp]
  exact ⟨rfl, rfl, 0, 1, rfl, rfl, Nat.le_succ 0⟩

theorem C3_witness :
    (Task.run (taskWith 1 (sampleRequest (Except.ok 42)) none none)).1.call_report.state =
      CallState.finished ∧
    (Task.run (taskWith 1 (sampleRequest (Except.ok 42)) none none)).1.call_report.result =
      some 42 ∧
    ∃ s f : Nat,
      (Task.run (taskWith 1 (sampleRequest (Except.ok 42)) none none)).1.call_report.start_time =
        some s ∧
      (Task.run (taskWith 1 (sampleRequest (Except.ok 42)) none none)).1.call_report.finish_time =
        some f ∧ s ≤ f :=
  C3_run_success 1 (sampleRequest (Except.ok 42)) none none 42 rfl rfl rfl

/-- C4: a WAITING task whose wrapped call raises `e` (progress reports
succeeding, hooks non-raising) is left by `run()` in state ERROR with
the exception and traceback captured, `result` unset, and `run()`
returning normally (the call's exception does not escape). -/
theorem C4_run_failure (id : Nat) (cr : CallRequest V E) (cc : Option (Option E))
    (pc : Option (V → Except E V)) (e : E)
    (hout : cr.call.outcome = Except.error e)
    (hhooks : hooksOk cr = true)
    (hact : actionsOk pc cr.call.actions = true) :
    (Task.run (taskWith id cr cc pc)).1.call_report.state = CallState.error ∧
    (Task.run (taskWith id cr cc pc)).1.call_report.exception = some (PyErr.user e) ∧
    (Task.run (taskWith id cr cc pc)).1.call_report.traceback = some () ∧
    (Task.run (taskWith id cr cc pc)).1.call_report.result = none ∧
    (Task.run (taskWith id cr cc pc)).2 = Except.ok () := by
  simp only [hooksOk, Bool.and_eq_true] at hhooks
  obtain ⟨⟨hF, hE⟩, hC⟩ := hhooks
  obtain ⟨p, hp⟩ := run_call_raises_spec (taskWith id cr cc pc) e rfl
    (actionsResult_of_actionsOk hact) hout
    (hooksResult_of_all_isNone hE) (hooksResult_of_all_isNone hC)
  rw [hp]
  exact ⟨rfl, rfl, rfl, rfl, rfl⟩

theorem C4_witness :
    (Task.run (taskWith 1 (sampleRequest (Except.error 7)) none none)).1.call_report.state =
      CallState.error ∧
    (Task.run (taskWith 1 (sampleRequest (Except.error 7)) none none)).1.call_report.exception =
      some (PyErr.user 7) ∧
    (Task.run (taskWith 1 (sampleRequest (Except.error 7)) none none)).1.call_report.traceback =
      some () ∧
    (Task.run (taskWith 1 (sampleRequest (Except.error 7)) none none)).1.call_report.result =
      none ∧
    (Task.run (taskWith 1 (sampleRequest (Except.error 7)) none none)).2 = Except.ok () :=
  C4_run_failure 1 (sampleRequest (Except.error 7)) none none 7 rfl rfl rfl

/-- C1: counterexample — on a task that completes successfully, the
terminal state is assigned in the call report strictly before the
archive write, so the ordering the spec claims (archive write strictly
before the terminal state becomes visible) is false. -/
theorem C1_counterexample :
    (Task.run (taskWith 0 (sampleRequest (Except.ok 0)) none none)).1.call_report.state ∈
      CALL_COMPLETE_STATES ∧
    specClaimedArchiveBeforeState
      (Task.run (taskWith 0 (sampleRequest (Except.ok 0)) none none)).1.events = false := by
  constructor
  · decide
  · decide

/-- C1 (amended): within one completion, the outcome-specific hooks
(ON_SUCCESS / ON_FAILURE) run strictly before the ON_COMPLETE hooks,
which run strictly before the terminal state value is assigned to the
call report's state field, which happens strictly before the archive
write.  This holds for every run and every cancellation. -/
theorem C1_completion_event_order (id : Nat) (cr : CallRequest V E)
    (cc : Option (Option E)) (pc : Option (V → Except E V)) :
    orderedTrace (Task.run (taskWith id cr cc pc)).1.events = true ∧
    orderedTrace (Task.cancel (taskWith id cr cc pc)).1.events = true := by
  constructor
  · rw [run_events _ rfl]
    simpa [taskWith, Task.new] using orderedTrace_runEvents cr cc pc
  · rw [cancel_events _ (by simp [taskWith, Task.new, CALL_COMPLETE_STATES])]
    simpa [taskWith, Task.new] using orderedTrace_cancelEvents cr cc

/-- C2: counterexample — `set_progress_callback` writes the pass-through
into the caller's call request: afterwards the request's kwargs mapping
differs from its value at construction. -/
theorem C2_counterexample :
    (Task.set_progress_callback (taskWith 0 (sampleRequest (Except.ok 0)) none none)
        "progress" (fun v => Except.ok v)).1.call_request.kwargs ≠
      (taskWith 0 (sampleRequest (Except.ok 0)) none none).call_request.kwargs := by
  decide

/-- C2 (amended): the execution-time injections never mutate the call
request — `Task.run` and `AsyncTask.run` (which injects the completion
closures into a local copy of the kwargs) leave the request's args and
kwargs unchanged — but `set_progress_callback` itself does install the
progress pass-through in the request's kwargs under the given declared
keyword (leaving args unchanged). -/
theorem C2_request_mutation (t : TaskState V E) (a : AsyncTaskState V E)
    (name : String) (cb : V → Except E V) :
    (Task.run t).1.call_request.args = t.call_request.args ∧
    (Task.run t).1.call_request.kwargs = t.call_request.kwargs ∧
    (AsyncTask.run a).1.task.call_request.args = a.task.call_request.args ∧
    (AsyncTask.run a).1.task.call_request.kwargs = a.task.call_request.kwargs ∧
    (name ∈ t.call_request.call.arg_names →
      (Task.set_progress_callback t name cb).1.call_request.args = t.call_request.args ∧
      (Task.set_progress_callback t name cb).1.call_request.kwargs =
        dictInsert name KwVal.progressPassThrough t.call_request.kwargs) := by
  refine ⟨?_, ?_, ?_, ?_, ?_⟩
  · rw [run_call_request]
  · rw [run_call_request]
  · rw [async_run_call_request]
  · rw [async_run_call_request]
  · intro hmem
    constructor
    · simp [Task.set_progress_callback, hmem]
    · simp [Task.set_progress_callback, hmem]

theorem C2_witness :
    (Task.set_progress_callback (taskWith 0 (sampleRequest (Except.ok 0)) none none)
        "progress" (fun v => Except.ok v)).1.call_request.kwargs =
      dictInsert "progress" KwVal.progressPassThrough
        (taskWith 0 (sampleRequest (Except.ok 0)) none none).call_request.kwargs ∧
    (Task.run (taskWith 0 (sampleRequest (Except.ok 0)) none none)).1.call_request.kwargs =
      (taskWith 0 (sampleRequest (Except.ok 0)) none none).call_request.kwargs :=
  ⟨((C2_request_mutation (taskWith 0 (sampleRequest (Except.ok 0)) none none)
      (AsyncTask.new 0 (sampleRequest (Except.ok 0)) "succeeded" "failed").1
      "progress" (fun v => Except.ok v)).2.2.2.2 (by decide)).2,
   (C2_request_mutation (taskWith 0 (sampleRequest (Except.ok 0)) none none)
      (AsyncTask.new 0 (sampleRequest (Except.ok 0)) "succeeded" "failed").1
      "progress" (fun v => Except.ok v)).2.1⟩

/-- C5: a task driven to a terminal state (by a clean run, or by a
cancellation through a present hook) saves exactly one archive record;
and once the report is terminal, a further completion signal
(`_succeeded` or `_failed` — also the closures `AsyncTask` injects,
which are these same bound methods) fails the RUNNING assertion and
changes nothing, so the first recorded outcome is never replaced. -/
theorem C5_one_archive_and_second_signal_rejected (id : Nat) (cr : CallRequest V E)
    (cc : Option (Option E)) (pc : Option (V → Except E V))
    (r : Option V) (exc : Option (PyErr E)) (tb : Option Unit)
    (hhooks : hooksOk cr = true)
    (hact : actionsOk pc cr.call.actions = true) :
    (Task.run (taskWith id cr cc pc)).1.archives.length = 1 ∧
    (cr.control_hooks = some none →
      (Task.cancel (taskWith id cr cc pc)).1.archives.length = 1) ∧
    (∀ u : TaskState V E, u.call_report.state ∈ CALL_COMPLETE_STATES →
      Task.succeeded u r = (u, Except.error PyErr.assertionError) ∧
      Task.failed u exc tb = (u, Except.error PyErr.assertionError)) := by
  simp only [hooksOk, Bool.and_eq_true] at hhooks
  obtain ⟨⟨hF, hE⟩, hC⟩ := hhooks
  refine ⟨?_, ?_, ?_⟩
  · cases hout : cr.call.outcome with
    | ok v =>
      obtain ⟨p, hp⟩ := run_ok_spec (taskWith id cr cc pc) v rfl
        (actionsResult_of_actionsOk hact) hout
        (hooksResult_of_all_isNone hF) (hooksResult_of_all_isNone hC)
      rw [hp]
      simp [taskWith, Task.new]
    | error e =>
      obtain ⟨p, hp⟩ := run_call_raises_spec (taskWith id cr cc pc) e rfl
        (actionsResult_of_actionsOk hact) hout
        (hooksResult_of_all_isNone hE) (hooksResult_of_all_isNone hC)
      rw [hp]
      simp [taskWith, Task.new]
  · intro hch
    rw [cancel_spec _ (by simp [taskWith, Task.new, CALL_COMPLETE_STATES]) hch
      (hooksResult_of_all_isNone hC)]
    simp [taskWith, Task.new]
  · intro u hu
    have hne : u.call_report.state ≠ CallState.running := by
      intro h
      rw [h] at hu
      simp [CALL_COMPLETE_STATES] at hu
    constructor
    · simp [Task.succeeded, hne]
    · simp [Task.failed, hne]

theorem C5_witness :
    (Task.run (taskWith 2 cancellableRequest none none)).1.archives.length = 1 ∧
    (Task.cancel (taskWith 2 cancellableRequest none none)).1.archives.length = 1 ∧
    Task.succeeded doneTask (some 3) = (doneTask, Except.error PyErr.assertionError) ∧
    Task.failed doneTask (some (PyErr.user 9)) (some ()) =
      (doneTask, Except.error PyErr.assertionError) :=
  ⟨(C5_one_archive_and_second_signal_rejected 2 cancellableRequest none none
      (some 3) (some (PyErr.user 9)) (some ()) rfl rfl).1,
   (C5_one_archive_and_second_signal_rejected 2 cancellableRequest none none
      (some 3) (some (PyErr.user 9)) (some ()) rfl rfl).2.1 rfl,
   ((C5_one_archive_and_second_signal_rejected 2 cancellableRequest none none
      (some 3) (some (PyErr.user 9)) (some ()) rfl rfl).2.2 doneTask (by decide)).1,
   ((C5_one_archive_and_second_signal_rejected 2 cancellableRequest none none
      (some 3) (some (PyErr.user 9)) (some ()) rfl rfl).2.2 doneTask (by decide)).2⟩

/-- C6: on a non-terminal task without a CANCEL control hook, `cancel()`
raises the unsupported-operation error (`NotImplementedError`) and
changes nothing; on a task already in a terminal state, `cancel()` is a
pure no-op that invokes no hook and changes nothing. -/
theorem C6_cancel_no_hook_and_terminal_noop (t : TaskState V E) :
    (t.call_report.state ∉ CALL_COMPLETE_STATES → t.call_request.control_hooks = none →
      Task.cancel t = (t, Except.error PyErr.notImplementedError)) ∧
    (t.call_report.state ∈ CALL_COMPLETE_STATES → Task.cancel t = (t, Except.ok ())) := by
  constructor
  · intro hnt hch
    simp [Task.cancel, if_neg hnt, hch]
  · intro ht
    simp [Task.cancel, if_pos ht]

theorem C6_witness :
    Task.cancel (Task.new 3 (sampleRequest (Except.ok 0))) =
      (Task.new 3 (sampleRequest (Except.ok 0)), Except.error PyErr.notImplementedError) ∧
    Task.cancel doneTask = (doneTask, Except.ok ()) :=
  ⟨(C6_cancel_no_hook_and_terminal_noop (Task.new 3 (sampleRequest (Except.ok 0)))).1
      (by decide) rfl,
   (C6_cancel_no_hook_and_terminal_noop doneTask).2 (by decide)⟩

/-- C7: with a complete callback registered (of arbitrary behaviour —
it may raise, and its exception is suppressed), the callback is run
exactly once on the way to any terminal state, and the task still
reaches the terminal state and still saves exactly one archive record,
on the success path, the failure path and the cancel path alike. -/
theorem C7_complete_callback_once (id : Nat) (cr : CallRequest V E) (b : Option E)
    (pc : Option (V → Except E V))
    (hhooks : hooksOk cr = true)
    (hact : actionsOk pc cr.call.actions = true) :
    ((Task.run (taskWith id cr (some b) pc)).1.events.count Event.completeCallbackRun = 1 ∧
     (Task.run (taskWith id cr (some b) pc)).1.call_report.state ∈ CALL_COMPLETE_STATES ∧
     (Task.run (taskWith id cr (some b) pc)).1.archives.length = 1) ∧
    (cr.control_hooks = some none →
      (Task.cancel (taskWith id cr (some b) pc)).1.events.count Event.completeCallbackRun = 1 ∧
      (Task.cancel (taskWith id cr (some b) pc)).1.call_report.state = CallState.canceled ∧
      (Task.cancel (taskWith id cr (some b) pc)).1.archives.length = 1) := by
  simp only [hooksOk, Bool.and_eq_true] at hhooks
  obtain ⟨⟨hF, hE⟩, hC⟩ := hhooks
  constructor
  · cases hout : cr.call.outcome with
    | ok v =>
      obtain ⟨p, hp⟩ := run_ok_spec (taskWith id cr (some b) pc) v rfl
        (actionsResult_of_actionsOk hact) hout
        (hooksResult_of_all_isNone hF) (hooksResult_of_all_isNone hC)
      rw [hp]
      refine ⟨?_, by simp [CALL_COMPLETE_STATES], rfl⟩
      simp [taskWith, Task.new, List.count_append, count_ccRun_hookEvents, ccEv,
        List.count_cons, List.count_nil]
    | error e =>
      obtain ⟨p, hp⟩ := run_call_raises_spec (taskWith id cr (some b) pc) e rfl
        (actionsResult_of_actionsOk hact) hout
        (hooksResult_of_all_isNone hE) (hooksResult_of_all_isNone hC)
      rw [hp]
      refine ⟨?_, by simp [CALL_COMPLETE_STATES], rfl⟩
      simp [taskWith, Task.new, List.count_append, count_ccRun_hookEvents, ccEv,
        List.count_cons, List.count_nil]
  · intro hch
    rw [cancel_spec _ (by simp [taskWith, Task.new, CALL_COMPLETE_STATES]) hch
      (hooksResult_of_all_isNone hC)]
    refine ⟨?_, rfl, rfl⟩
    simp [taskWith, Task.new, List.count_append, count_ccRun_hookEvents, ccEv,
      List.count_cons, List.count_nil]

theorem C7_witness :
    ((Task.run (taskWith 4 (sampleRequest (Except.ok 0)) (some (some 7)) none)).1.events.count
        Event.completeCallbackRun = 1 ∧
      (Task.run (taskWith 4 (sampleRequest (Except.ok 0)) (some (some 7)) none)).1.call_report.state ∈
        CALL_COMPLETE_STATES ∧
      (Task.run (taskWith 4 (sampleRequest (Except.ok 0)) (some (some 7)) none)).1.archives.length =
        1) ∧
    ((Task.cancel (taskWith 4 cancellableRequest (some (some 7)) none)).1.events.count
        Event.completeCallbackRun = 1 ∧
      (Task.cancel (taskWith 4 cancellableRequest (some (some 7)) none)).1.call_report.state =
        CallState.canceled ∧
      (Task.cancel (taskWith 4 cancellableRequest (some (some 7)) none)).1.archives.length = 1) :=
  ⟨(C7_complete_callback_once 4 (sampleRequest (Except.ok 0)) (some 7) none rfl rfl).1,
   (C7_complete_callback_once 4 cancellableRequest (some 7) none rfl rfl).2 rfl⟩

/-- C8: at the failing input (a callable declaring neither `succeeded`
nor `failed`), `AsyncTask.__init__` fails, but with the bare
`Exception('wtf async')` of the `TODO raise validation error` site
rather than a validation error; the failure still happens at
construction: the task is left in its initial WAITING state with no
start time and no recorded events. -/
theorem C8_validation_raises_bare_exception :
    (AsyncTask.new 5 plainRequest "succeeded" "failed").2 =
      Except.error (PyErr.pyException "wtf async") ∧
    (AsyncTask.new 5 plainRequest "succeeded" "failed").1.task.call_report.state =
      CallState.waiting ∧
    (AsyncTask.new 5 plainRequest "succeeded" "failed").1.task.call_report.start_time = none ∧
    (AsyncTask.new 5 plainRequest "succeeded" "failed").1.task.events = [] := by
  exact ⟨rfl, rfl, rfl, rfl⟩

/-- C9: counterexample — the progress pass-through assigns the
callback's result into `call_report.progress` but returns `None` (the
body has no `return` statement), not that value. -/
theorem C9_counterexample :
    (Task.progress_pass_through
        (taskWith 6 (sampleRequest (Except.ok 0)) none (some fun x => Except.ok (x + 1)))
        5).1.call_report.progress = some 6 ∧
    (Task.progress_pass_through
        (taskWith 6 (sampleRequest (Except.ok 0)) none (some fun x => Except.ok (x + 1)))
        5).2 ≠ Except.ok (some 6) := by
  constructor
  · rfl
  · show (Except.ok (none : Option Nat) : Except (PyErr Nat) (Option Nat)) ≠
      Except.ok (some 6)
    simp

/-- C9 (amended): when invoked, the pass-through assigns the progress
callback's result into `CallReport.progress` and then returns `None`
(not that value); and when the callback raises, the pass-through
re-raises into the executing call, so a task whose call reports
progress through a raising callback ends in state ERROR carrying that
error. -/
theorem C9_progress_pass_through_semantics (t : TaskState V E) (f : V → Except E V)
    (id : Nat) (cr : CallRequest V E) (cc : Option (Option E))
    (hpc : t.progress_callback = some f) :
    (∀ x v, f x = Except.ok v →
      Task.progress_pass_through t x =
        ({ t with call_report := { t.call_report with progress := some v } },
          Except.ok none)) ∧
    (∀ x e, f x = Except.error e →
      Task.progress_pass_through t x = (t, Except.error (PyErr.user e))) ∧
    (∀ x e, cr.call.actions = [x] → f x = Except.error e → hooksOk cr = true →
      (Task.run (taskWith id cr cc (some f))).1.call_report.state = CallState.error ∧
      (Task.run (taskWith id cr cc (some f))).1.call_report.exception =
        some (PyErr.user e)) := by
  refine ⟨?_, ?_, ?_⟩
  · intro x v hfx
    simp [Task.progress_pass_through, hpc, hfx]
  · intro x e hfx
    simp [Task.progress_pass_through, hpc, hfx]
  · intro x e hacts hfx hhooks
    simp only [hooksOk, Bool.and_eq_true] at hhooks
    obtain ⟨⟨hF, hE⟩, hC⟩ := hhooks
    have hact : actionsResult (taskWith id cr cc (some f)).progress_callback
        (taskWith id cr cc (some f)).call_request.call.actions =
        Except.error (PyErr.user e) := by
      show actionsResult (some f) cr.call.actions = Except.error (PyErr.user e)
      rw [hacts]
      simp [actionsResult, hfx]
    obtain ⟨p, hp⟩ := run_progress_raises_spec (taskWith id cr cc (some f))
      (PyErr.user e) rfl hact
      (hooksResult_of_all_isNone hE) (hooksResult_of_all_isNone hC)
    rw [hp]
    exact ⟨rfl, rfl⟩

theorem C9_witness :
    Task.progress_pass_through
        (taskWith 6 progressRequest none
          (some fun y => if y = 5 then Except.error 3 else Except.ok (y + 1)))
        4 =
      ({ taskWith 6 progressRequest none
            (some fun y => if y = 5 then Except.error 3 else Except.ok (y + 1)) with
          call_report :=
            { (taskWith 6 progressRequest none
                (some fun y => if y = 5 then Except.error 3 else Except.ok (y + 1))).call_report
                with progress := some 5 } },
        Except.ok none) ∧
    Task.progress_pass_through
        (taskWith 6 progressRequest none
          (some fun y => if y = 5 then Except.error 3 else Except.ok (y + 1)))
        5 =
      (taskWith 6 progressRequest none
          (some fun y => if y = 5 then Except.error 3 else Except.ok (y + 1)),
        Except.error (PyErr.user 3)) ∧
    (Task.run (taskWith 6 progressRequest none
        (some fun y => if y = 5 then Except.error 3 else Except.ok (y + 1)))).1.call_report.state =
      CallState.error ∧
    (Task.run (taskWith 6 progressRequest none
        (some fun y => if y = 5 then Except.error 3 else Except.ok (y + 1)))).1.call_report.exception =
      some (PyErr.user 3) :=
  ⟨(C9_progress_pass_through_semantics
      (taskWith 6 progressRequest none
        (some fun y => if y = 5 then Except.error 3 else Except.ok (y + 1)))
      (fun y => if y = 5 then Except.error 3 else Except.ok (y + 1))
      6 progressRequest none rfl).1 4 5 rfl,
   (C9_progress_pass_through_semantics
      (taskWith 6 progressRequest none
        (some fun y => if y = 5 then Except.error 3 else Except.ok (y + 1)))
      (fun y => if y = 5 then Except.error 3 else Except.ok (y + 1))
      6 progressRequest none rfl).2.1 5 3 rfl,
   ((C9_progress_pass_through_semantics
      (taskWith 6 progressRequest none
        (some fun y => if y = 5 then Except.error 3 else Except.ok (y + 1)))
      (fun y => if y = 5 then Except.error 3 else Except.ok (y + 1))
      6 progressRequest none rfl).2.2 5 3 rfl rfl rfl).1,
   ((C9_progress_pass_through_semantics
      (taskWith 6 progressRequest none
        (some fun y => if y = 5 then Except.error 3 else Except.ok (y + 1)))
      (fun y => if y = 5 then Except.error 3 else Except.ok (y + 1))
      6 progressRequest none rfl).2.2 5 3 rfl rfl rfl).2⟩

/-- C10: `cancel()` on a freshly constructed (WAITING) task whose
request carries a CANCEL control hook completes the task as CANCELED:
`finish_time` is stamped, while `start_time` (stamped only by `run()`),
`result` and `exception` all remain unset. -/
theorem C10_cancel_waiting_task (id : Nat) (cr : CallRequest V E)
    (cc : Option (Option E)) (pc : Option (V → Except E V))
    (hch : cr.control_hooks = some none)
    (hhooks : hooksOk cr = true) :
    (Task.cancel (taskWith id cr cc pc)).1.call_report.state = CallState.canceled ∧
    (∃ n : Nat, (Task.cancel (taskWith id cr cc pc)).1.call_report.finish_time = some n) ∧
    (Task.cancel (taskWith id cr cc pc)).1.call_report.start_time = none ∧
    (Task.cancel (taskWith id cr cc pc)).1.call_report.result = none ∧
    (Task.cancel (taskWith id cr cc pc)).1.call_report.exception = none := by
  simp only [hooksOk, Bool.and_eq_true] at hhooks
  obtain ⟨⟨hF, hE⟩, hC⟩ := hhooks
  rw [cancel_spec _ (by simp [taskWith, Task.new, CALL_COMPLETE_STATES]) hch
    (hooksResult_of_all_isNone hC)]
  exact ⟨rfl, ⟨0, rfl⟩, rfl, rfl, rfl⟩

theorem C10_witness :
    (Task.cancel (taskWith 7 cancellableRequest none none)).1.call_report.state =
      CallState.canceled ∧
    (∃ n : Nat,
      (Task.cancel (taskWith 7 cancellableRequest none none)).1.call_report.finish_time =
        some n) ∧
    (Task.cancel (taskWith 7 cancellableRequest none none)).1.call_report.start_time = none ∧
    (Task.cancel (taskWith 7 cancellableRequest none none)).1.call_report.result = none ∧
    (Task.cancel (taskWith 7 cancellableRequest none none)).1.call_report.exception = none :=
  C10_cancel_waiting_task 7 cancellableRequest none none rfl rfl

end Pulp
